import Mathlib

/-!
Verification of the document formatter (`scripts/formatter.py`) of the
document-format-skills repository.  Python text values are embedded as
`List Char` (one entry per Unicode code point, matching Python string
indexing and `len`), numbers appearing in layout computations as `ℚ`
(the source uses Python floats only for ratios of small decimals; exact
rational arithmetic models the intended values), and the fallible /
early-return control flow as `Option`/`Except`.

Regular expressions in the source are translated by direct case analysis
on the pattern text.  Three source patterns are written inside *raw*
strings with doubled backslashes (for example
`r'^[-+]?\\d+(?:\\.\\d+)?%?$'` in `_is_numeric_text`): in a Python raw
string `\\` denotes two backslash characters, which the regex engine in
turn reads as one *literal* backslash, so such a pattern matches a
literal `\` followed by the letter `d` — not a digit.  The embedding
reproduces this faithfully.
-/

namespace DocFmt

/-- Characters treated as whitespace by Python `str.strip` and by the
`\s` regex class (the subset relevant to this code base). -/
def pyWs (c : Char) : Bool :=
  c = ' ' || c = '\t' || c = '\n' || c = '\r' || c = '\x0b' || c = '\x0c' ||
  c = '\u0085' || c = ' ' || c = ' ' || c = ' ' || c = '　'

/-- Python `str.strip()`: drop leading and trailing whitespace. -/
def pyStrip (l : List Char) : List Char :=
  ((l.dropWhile pyWs).reverse.dropWhile pyWs).reverse

/-- ASCII decimal digit (the only digits occurring in the documents this
tool processes; Python `\d` additionally accepts other Unicode decimal
digits). -/
def isAsciiDigit (c : Char) : Bool := '0' ≤ c && c ≤ '9'

/-- CJK unified ideograph, the class `[一-鿿]` used by the
recipient rule of `detect_para_type`. -/
def isCJK (c : Char) : Bool := 0x4e00 ≤ c.toNat && c.toNat ≤ 0x9fff

/-- Member of the Chinese ordinal class `[一二三四五六七八九十]`. -/
def isCnOrdinal (c : Char) : Bool :=
  c = '一' || c = '二' || c = '三' || c = '四' || c = '五' ||
  c = '六' || c = '七' || c = '八' || c = '九' || c = '十'

/-- Python substring containment `needle in hay`. -/
def strContains (hay needle : List Char) : Bool :=
  hay.tails.any (fun t => needle.isPrefixOf t)

/-- Text ends with one of the given suffixes (a `re.search` whose pattern
is an alternation anchored at `$`). -/
def endsWithAny (suffixes : List (List Char)) (t : List Char) : Bool :=
  suffixes.any (fun s => s.isSuffixOf t)

/-! ## `_is_numeric_text` (formatter.py lines 414-419)

```python
def _is_numeric_text(text):
    text = text.replace(',', '').replace('％', '%').strip()
    if not text:
        return False
    return re.match(r'^[-+]?\\d+(?:\\.\\d+)?%?$', text) is not None
```

The raw string makes the regex `^[-+]?\\d+(?:\\.\\d+)?%?$`, i.e. after
an optional sign it requires a literal backslash, then one or more
letters `d`, then optionally a literal backslash, any (non-newline)
character and a further literal backslash plus letters `d`, then an
optional percent sign.  Ordinary decimal literals contain no backslash
and therefore never match. -/

/-- Remainder check for the regex after the mandatory `\` `d+` part:
the rest must be empty, a lone `%`, or the optional group
(backslash, any non-newline char, backslash, one or more `d`) followed
by an optional `%` at the very end. -/
def numericTailOk (r : List Char) : Bool :=
  match r with
  | [] => true
  | ['%'] => true
  | '\\' :: c :: '\\' :: rest =>
      let p := rest.span (fun x => x = 'd')
      (c ≠ '\n') && !p.1.isEmpty && (p.2.isEmpty || p.2 = ['%'])
  | _ => false

/-- Translation: `_is_numeric_text`: strip commas, normalize full-width `％`, strip
whitespace, then apply the (mis-escaped) anchored pattern. -/
def is_numeric_text (text : List Char) : Bool :=
  let t := pyStrip ((text.filter (fun c => c ≠ ','))
                      |>.map (fun c => if c = '％' then '%' else c))
  if t.isEmpty then false
  else
    let t1 := match t with
              | c :: rest => if c = '-' || c = '+' then rest else t
              | [] => t
    match t1 with
    | '\\' :: rest =>
        let p := rest.span (fun x => x = 'd')
        !p.1.isEmpty && numericTailOk p.2
    | _ => false

/-- Translation: `_is_short_text` (lines 422-424): stripped text of positive length at
most `max_len`. -/
def is_short_text (text : List Char) (max_len : Nat) : Bool :=
  let t := pyStrip text
  0 < t.length && t.length ≤ max_len

/-! ## Per-cell alignment policy (formatter.py lines 1039-1051) -/

/-- Paragraph alignment values used by the formatter. -/
inductive WdAlign where
  | center | left | right | justify
deriving DecidableEq, Repr

/-- The per-cell alignment decision of the table loop, evaluated in source
order: header row → center; text containing 合计/总计 → center; cell in
the detected serial-number column → center; numeric text → right; short
text → center; otherwise left.  `cell_text` is the stripped
concatenation of the cell paragraph texts, as computed at line 1018. -/
def cellAlignPolicy (row_idx col_idx : Nat) (serial_col_idx : Option Nat)
    (cell_text : List Char) (short_text_len : Nat) : WdAlign :=
  if row_idx = 0 then .center
  else if strContains cell_text "合计".data || strContains cell_text "总计".data then .center
  else if serial_col_idx = some col_idx then .center
  else if is_numeric_text cell_text then .right
  else if is_short_text cell_text short_text_len then .center
  else .left

/-! ## Heading marker patterns (shared by `_split_heading_by_punct`,
lines 594-601, and `detect_para_type`, lines 489-507) -/

/-- Translation: `re.match(r'^[一二三四五六七八九十]+、', t)`: one or more Chinese
ordinals followed by the enumeration comma. -/
def isH1Marker (t : List Char) : Bool :=
  let p := t.span isCnOrdinal
  !p.1.isEmpty && p.2.head? = some '、'

/-- Translation: `^（[一二三四五六七八九十]+）` or `^\([一二三四五六七八九十]+\)`:
parenthesized Chinese ordinal, full- or half-width parens. -/
def isH2Marker (t : List Char) : Bool :=
  (match t with
   | '（' :: rest =>
       let p := rest.span isCnOrdinal
       !p.1.isEmpty && p.2.head? = some '）'
   | _ => false) ||
  (match t with
   | '(' :: rest =>
       let p := rest.span isCnOrdinal
       !p.1.isEmpty && p.2.head? = some ')'
   | _ => false)

/-- Translation: `^\d+\.\s*\S`: digits, a dot, optional whitespace, then a
non-whitespace character. -/
def isH3Marker (t : List Char) : Bool :=
  let p := t.span isAsciiDigit
  !p.1.isEmpty &&
    match p.2 with
    | '.' :: rest => !(rest.dropWhile pyWs).isEmpty
    | _ => false

/-- Translation: `^（\d+）` or `^\(\d+\)`: parenthesized Arabic numeral. -/
def isH4Marker (t : List Char) : Bool :=
  (match t with
   | '（' :: rest =>
       let p := rest.span isAsciiDigit
       !p.1.isEmpty && p.2.head? = some '）'
   | _ => false) ||
  (match t with
   | '(' :: rest =>
       let p := rest.span isAsciiDigit
       !p.1.isEmpty && p.2.head? = some ')'
   | _ => false)

/-- The heading-marker test of `_split_heading_by_punct` (lines 594-601),
in source order. -/
def hasHeadingMarker (t : List Char) : Bool :=
  isH1Marker t || isH2Marker t || isH3Marker t || isH4Marker t

/-! ## `_split_heading_by_punct` (formatter.py lines 587-620) -/

/-- Python `str.find`: index of the first occurrence of `c`, `none` for
the source value `-1`. -/
def findPos (c : Char) : List Char → Option Nat
  | [] => none
  | x :: xs => if x = c then some 0 else (findPos c xs).map (· + 1)

/-- Minimum of two optional positions; `none` behaves as the element
dropped by the source list comprehension over found positions. -/
def optMin : Option Nat → Option Nat → Option Nat
  | none, b => b
  | some a, none => some a
  | some a, some b => some (min a b)

/-- Translation: `min(punct_positions)` over the positions of `：`, `:` and `。`
found in the text (lines 605-612). -/
def splitPunctIdx (t : List Char) : Option Nat :=
  optMin (optMin (findPos '：' t) (findPos ':' t)) (findPos '。' t)

/-- Translation: `_split_heading_by_punct` on the paragraph text: `none` means the
paragraph is left untouched; `some (head, tail)` means the paragraph is
truncated to `head` and a new paragraph with text `tail` is inserted
immediately after it. -/
def split_heading_by_punct (text : List Char) : Option (List Char × List Char) :=
  let t := pyStrip text
  if t.isEmpty then none
  else if !hasHeadingMarker t then none
  else
    match splitPunctIdx t with
    | none => none
    | some i =>
        let head := pyStrip (t.take (i+1))
        let tail := pyStrip (t.drop (i+1))
        if tail.isEmpty then none else some (head, tail)

/-- First index of a character from `cs`. -/
def findAnyPos (cs : List Char) : List Char → Option Nat
  | [] => none
  | x :: xs => if x ∈ cs then some 0 else (findAnyPos cs xs).map (· + 1)

/-- Heading splitter as worded by the specification: scan the text for
the *first occurrence* of a full- or half-width colon or a Chinese full
stop; if found with text following it, truncate to the prefix and emit
the remainder as a new paragraph, otherwise leave the paragraph
untouched. -/
def splitHeadingSpec (text : List Char) : Option (List Char × List Char) :=
  let t := pyStrip text
  if t.isEmpty then none
  else if !hasHeadingMarker t then none
  else
    match findAnyPos ['：', ':', '。'] t with
    | none => none
    | some i =>
        let head := pyStrip (t.take (i+1))
        let tail := pyStrip (t.drop (i+1))
        if tail.isEmpty then none else some (head, tail)

/-! ## `_is_table_title` / `_is_table_unit` (formatter.py lines 427-444)

Both patterns are raw strings with doubled backslashes:
`r'^表\\s*(?:\\d+|[一二三四五六七八九十]+)(?:[\\-\\—\\._、]\\d+)?'` and
`r'^单位\\s*[:：]'`.  The regex therefore demands a literal backslash
right after `表` / `单位`, followed by zero or more letters `s`, and
(for the title) either a literal backslash plus letters `d` or Chinese
ordinals.  The trailing optional group of the title pattern cannot
affect whether the anchored prefix match succeeds. -/

/-- Translation: `_is_table_title`. -/
def is_table_title (text : List Char) : Bool :=
  let t := pyStrip text
  if t.isEmpty then false
  else if t.length > 30 then false
  else
    match t with
    | '表' :: '\\' :: rest =>
        match rest.dropWhile (fun c => c = 's') with
        | '\\' :: r2 => r2.head? = some 'd'
        | c :: _ => isCnOrdinal c
        | [] => false
    | _ => false

/-- Translation: `_is_table_unit`. -/
def is_table_unit (text : List Char) : Bool :=
  let t := pyStrip text
  if t.isEmpty then false
  else if t.length > 20 then false
  else
    match t with
    | '单' :: '位' :: '\\' :: rest =>
        (rest.dropWhile (fun c => c = 's')).head? = some ':' ||
        (rest.dropWhile (fun c => c = 's')).head? = some '：'
    | _ => false

/-! ## Column-width computation (formatter.py lines 304-361) -/

/-- Translation: `_text_weight`: 0.5 per ASCII character, 1.0 per non-ASCII
character. -/
def text_weight (t : List Char) : ℚ :=
  t.foldl (fun acc c => acc + if c.toNat < 128 then 1/2 else 1) 0

/-- The low-clamp loop of `_normalize_pcts` (lines 319-321). -/
def clampLow (min_pct : ℚ) (l : List ℚ) : List ℚ :=
  l.map (fun v => if v < min_pct then min_pct else v)

/-- The high-clamp loop of `_normalize_pcts` (lines 323-325), applied to
the already low-clamped values. -/
def clampHigh (max_pct : ℚ) (l : List ℚ) : List ℚ :=
  l.map (fun v => if v > max_pct then max_pct else v)

/-- Python `sum(xs) or 1.0`: the sum, replaced by 1 when it is zero. -/
def pyTotal (l : List ℚ) : ℚ := if l.sum = 0 then 1 else l.sum

/-- Translation: `_normalize_pcts`: scale weights to percentages, clamp low then
high, then rescale the clamped values so that they sum to 100. -/
def normalize_pcts (weights : List ℚ) (min_pct max_pct : ℚ) : List ℚ :=
  let total := pyTotal weights
  let pcts := weights.map (fun w => w / total * 100)
  let clamped := clampHigh max_pct (clampLow min_pct pcts)
  let total2 := pyTotal clamped
  clamped.map (fun v => v / total2 * 100)

/-! ## `detect_para_type` (formatter.py lines 472-584) -/

/-- Rule 5, `^[一-鿿]+[：:]$`: CJK ideographs followed by a
single colon at the end. -/
def matchRecipient (t : List Char) : Bool :=
  let p := t.span isCJK
  !p.1.isEmpty && (p.2 = ['：'] || p.2 = [':'])

/-- Rule 6, the three attachment patterns `^附件[：:]\s*`,
`^附件\d*[：:．.\s]` and `^附件$`, in source order. -/
def matchAttachment (t : List Char) : Bool :=
  (match t with
   | '附' :: '件' :: c :: _ => c = '：' || c = ':'
   | _ => false) ||
  (match t with
   | '附' :: '件' :: rest =>
       match rest.dropWhile isAsciiDigit with
       | c :: _ => c = '：' || c = ':' || c = '．' || c = '.' || pyWs c
       | [] => false
   | _ => false) ||
  (t = ['附', '件'])

/-- Translation: `.` of a default-mode regex: any character except a newline. -/
def noNewline (s : List Char) : Bool := s.all (fun c => c ≠ '\n')

/-- Words of the closing pattern `^特此(...)。?$`. -/
def closingWords1 : List (List Char) :=
  ["说明".data, "通知".data, "报告".data, "函复".data, "函告".data,
   "批复".data, "公告".data, "通报".data]

/-- Words of the closing pattern `^请.{0,15}(...)。?$`. -/
def closingWords6 : List (List Char) :=
  ["批示".data, "审批".data, "审议".data, "指示".data, "核准".data]

/-- Rule 7: the six closing-phrase patterns of lines 523-530, in source
order. -/
def isClosingText (t : List Char) : Bool :=
  (match t with
   | '特' :: '此' :: rest =>
       closingWords1.any (fun w => rest = w || rest = w ++ ['。'])
   | _ => false) ||
  (t = "此致".data) ||
  (t = "敬礼".data || t = "敬礼！".data || t = "敬礼!".data) ||
  (match t with
   | '以' :: '上' :: rest =>
       (["报告".data, "意见".data, "方案".data]).any (fun w =>
         w.isPrefixOf rest && (rest.drop 2).length ≤ 10 && noNewline (rest.drop 2))
   | _ => false) ||
  (match t with
   | '妥' :: '否' :: rest => rest.length ≤ 10 && noNewline rest
   | _ => false) ||
  (match t with
   | '请' :: rest =>
       (List.range 16).any (fun k =>
         k ≤ rest.length && noNewline (rest.take k) &&
         closingWords6.any (fun w => rest.drop k = w || rest.drop k = w ++ ['。']))
   | _ => false)

/-- Consume one or two ASCII digits greedily (`\d{1,2}`), returning the
remainder; the following character of every use is a non-digit, so the
greedy parse is exact. -/
def parseDigits12 : List Char → Option (List Char)
  | a :: b :: rest =>
      if isAsciiDigit a then
        (if isAsciiDigit b then some rest else some (b :: rest))
      else none
  | [a] => if isAsciiDigit a then some [] else none
  | [] => none

/-- Consume one expected character. -/
def expectChar (c : Char) : List Char → Option (List Char)
  | x :: xs => if x = c then some xs else none
  | [] => none

/-- Translation: `^\d{4}年\d{1,2}月\d{1,2}日$`. -/
def matchDateCJK (t : List Char) : Bool :=
  (t.take 4).length = 4 && (t.take 4).all isAsciiDigit &&
  ((expectChar '年' (t.drop 4) |>.bind parseDigits12 |>.bind (expectChar '月')
      |>.bind parseDigits12 |>.bind (expectChar '日')) = some [])

/-- Translation: `^\d{4}<sep>\d{1,2}<sep>\d{1,2}$` for separators `.`, `/`, `-`. -/
def matchDateSep (sep : Char) (t : List Char) : Bool :=
  (t.take 4).length = 4 && (t.take 4).all isAsciiDigit &&
  ((expectChar sep (t.drop 4) |>.bind parseDigits12 |>.bind (expectChar sep)
      |>.bind parseDigits12) = some [])

/-- First character class of the Chinese-numeral year pattern. -/
def dateSet1 (c : Char) : Bool :=
  c = '○' || c = '〇' || c = '零' || c = 'o' || c = 'O' || c = '0'

/-- Second character class of the Chinese-numeral year pattern. -/
def dateSet2 (c : Char) : Bool :=
  c = '一' || c = '二' || c = '三' || c = '四' || c = '五' || c = '六' ||
  c = '七' || c = '八' || c = '九' || c = '零' || c = '〇' || c = '○' ||
  c = 'o' || c = 'O' || c = '0'

/-- Translation: `^二[○〇零oO0][一二三四五六七八九零〇○oO0]{2}年.{1,3}月.{1,3}日$`.
The `.{1,3}` gaps are resolved by trying every gap width, matching the
backtracking search of the regex engine. -/
def matchDateCnYear (t : List Char) : Bool :=
  match t with
  | '二' :: c1 :: c2 :: c3 :: '年' :: rest =>
      dateSet1 c1 && dateSet2 c2 && dateSet2 c3 &&
      ((List.range 3).any (fun g =>
        let gap := g + 1
        gap ≤ rest.length && noNewline (rest.take gap) &&
        (match rest.drop gap with
         | '月' :: rest2 =>
             (List.range 3).any (fun g2 =>
               let gap2 := g2 + 1
               gap2 ≤ rest2.length && noNewline (rest2.take gap2) &&
               rest2.drop gap2 = ['日'])
         | _ => false)))
  | _ => false

/-- Rule 8: the five date-literal patterns of lines 537-543, in source
order. -/
def isDateText (t : List Char) : Bool :=
  matchDateCJK t || matchDateSep '.' t || matchDateSep '/' t ||
  matchDateSep '-' t || matchDateCnYear t

/-- The fixed organizational-entity suffix list of line 552
(`re.search(r'(公司|局|委|部|厅|院|所|中心|办公室|集团|银行|学校|大学|医院)$', text)`). -/
def orgSuffixes : List (List Char) :=
  ["公司".data, "局".data, "委".data, "部".data, "厅".data, "院".data,
   "所".data, "中心".data, "办公室".data, "集团".data, "银行".data,
   "学校".data, "大学".data, "医院".data]

/-- Text ends with an organizational-entity suffix. -/
def endsWithOrg (t : List Char) : Bool := endsWithAny orgSuffixes t

/-- Rule 9 lookahead (lines 555-559): locate the current (stripped) text
in `allTexts` by value equality — first occurrence; with duplicate texts
this may pick the wrong one, a documented limitation — and test whether
one of the next three entries is a date literal after stripping. -/
def nextThreeHasDate (t : List Char) (allTexts : List (List Char)) : Bool :=
  let remaining := if t ∈ allTexts then allTexts.drop (allTexts.indexOf t + 1) else []
  (remaining.take 3).any (fun s => isDateText (pyStrip s))

/-- Document types of the title pattern `^关于.+的(...)$`. -/
def titleDocTypes1 : List (List Char) :=
  ["通知".data, "报告".data, "请示".data, "函".data, "意见".data, "决定".data,
   "公告".data, "通报".data, "批复".data, "说明".data, "方案".data, "总结".data,
   "汇报".data, "复函".data, "答复".data, "建议".data]

/-- Translation: `^关于.+的(<doctype>)$`: the `.+` gap is resolved by trying every
width, as the regex backtracking search does. -/
def matchTitleGuanyu (t : List Char) : Bool :=
  match t with
  | '关' :: '于' :: rest =>
      (List.range rest.length).any (fun k =>
        noNewline (rest.take (k+1)) &&
        (match rest.drop (k+1) with
         | '的' :: r2 => titleDocTypes1.any (fun w => r2 = w)
         | _ => false))
  | _ => false

/-- Document types of the title pattern `^.{2,30}(...)$`. -/
def titleDocTypes2 : List (List Char) :=
  ["通知".data, "报告".data, "请示".data, "函".data, "意见".data, "决定".data,
   "公告".data, "通报".data, "批复".data, "工作方案".data, "工作总结".data,
   "实施方案".data, "管理办法".data, "暂行规定".data]

/-- Translation: `^.{2,30}(<doctype>)$`. -/
def matchTitleGeneric (t : List Char) : Bool :=
  (List.range 29).any (fun j =>
    let k := j + 2
    k ≤ t.length && noNewline (t.take k) &&
    titleDocTypes2.any (fun w => t.drop k = w))

/-- Translation: `re.search(r'[。！？，、；：]$', text)`: last character is
sentence-final punctuation. -/
def endsSentencePunct (t : List Char) : Bool :=
  match t.getLast? with
  | some c =>
      c = '。' || c = '！' || c = '？' || c = '，' || c = '、' || c = '；' || c = '：'
  | none => false

/-- Translation: `re.match(r'^[一二三四五六七八九十\d（(]', text)`: first character is
an ordinal, digit or opening parenthesis. -/
def startsOrdinalish (t : List Char) : Bool :=
  match t.head? with
  | some c => isCnOrdinal c || isAsciiDigit c || c = '（' || c = '('
  | none => false

/-- The closed set of paragraph roles. -/
inductive Role where
  | title | recipient | heading1 | heading2 | heading3 | heading4
  | body | signature | date | attachment | closing | empty
deriving DecidableEq, Repr

/-- The ordered rule chain of `detect_para_type` (lines 489-584), applied
to the already-stripped text `t`.  `index` and `total` are Python
integers (`Int`); `alignment` is the paragraph alignment or `none`.
The source returns from inside nested `if` statements; the translation
flattens those early returns into one `if`-chain in the same order. -/
def detectRules (t : List Char) (index total : Int)
    (alignment : Option WdAlign) (allTexts : List (List Char)) : Role :=
  if isH1Marker t then .heading1
  else if isH2Marker t then .heading2
  else if isH3Marker t && decide (t.length < 60) then .heading3
  else if isH4Marker t && decide (t.length < 60) then .heading4
  else if matchRecipient t && decide (t.length < 20) then .recipient
  else if matchAttachment t then .attachment
  else if isClosingText t then .closing
  else if isDateText t then .date
  else if (decide (total - 10 ≤ index) && decide (t.length < 30)) && endsWithOrg t then
    .signature
  else if (decide (total - 10 ≤ index) && decide (t.length < 30)) &&
          nextThreeHasDate t allTexts then .signature
  else if decide (index < 5) && (matchTitleGuanyu t || matchTitleGeneric t) then .title
  else if decide (index < 5) &&
          (decide (15 < t.length) && decide (t.length < 80) &&
           !endsSentencePunct t && !startsOrdinalish t) then .title
  else if decide (index < 5) &&
          (decide (alignment = some WdAlign.center) && decide (t.length < 60)) then .title
  else .body

/-- Translation: `detect_para_type(text, index, total, alignment, all_texts)`: strip
the text, return `empty` for blank text (line 487), otherwise run the
rule chain on the stripped text. -/
def detect_para_type (text : List Char) (index total : Int)
    (alignment : Option WdAlign) (allTexts : List (List Char)) : Role :=
  let t := pyStrip text
  if t.isEmpty then .empty
  else detectRules t index total alignment allTexts

/-! ## Table model (formatter.py lines 332-376 and 998-1051)

A table is a list of rows; a row is a list of cells; a cell is a list of
paragraph texts.  `python-docx` raises no error on any of the accesses
these loops perform, and every translated operation below is a total
function, so a zero-row table can never abort the run. -/

/-- A word-processing table: rows of cells of paragraph texts. -/
structure DocxTable where
  rows : List (List (List (List Char)))
deriving DecidableEq, Repr

/-- The joined, stripped text of a cell
(`''.join(p.text for p in cell.paragraphs).strip()`). -/
def cellText (cell : List (List Char)) : List Char := pyStrip cell.flatten

/-- The weight-accumulation loop of `_set_table_col_widths_by_content`
(lines 339-344): start from a floor of 1.0 per column and take the
maximum text weight over the non-empty cells of each column. -/
def rowMaxWeights (table : DocxTable) (col_count : Nat) : List ℚ :=
  table.rows.foldl (fun ws row =>
    ws.enum.map (fun p =>
      match row.get? p.1 with
      | some cell =>
          if !(cellText cell).isEmpty then max p.2 (text_weight (cellText cell)) else p.2
      | none => p.2)) (List.replicate col_count 1)

/-- Translation: `_set_table_col_widths_by_content` (lines 332-361): `none` models the
early `return` that leaves the table untouched (zero rows, or zero
columns); otherwise the per-column percentages written into the grid. -/
def set_table_col_widths_by_content (table : DocxTable) (min_pct max_pct : ℚ) :
    Option (List ℚ) :=
  if table.rows.isEmpty then none
  else
    let col_count := (table.rows.map (fun r => r.length)).foldl max 0
    if col_count = 0 then none
    else some (normalize_pcts (rowMaxWeights table col_count) min_pct max_pct)

/-- Serial-number-column detection (lines 999-1006): scan the header row
(guarded by `if table.rows:`) for the first cell whose text contains
序号 or equals 序. -/
def serialColIdx (table : DocxTable) : Option Nat :=
  match table.rows with
  | [] => none
  | hdr :: _ =>
      hdr.findIdx? (fun cell =>
        strContains (cellText cell) "序号".data || cellText cell = ['序'])

/-- The alignments assigned by the per-cell loop of lines 1008-1051, one
entry per cell paragraph group (the loop assigns the same alignment to
every paragraph of a cell, so one value per cell suffices). -/
def tableCellAlignments (table : DocxTable) (short_text_len : Nat) :
    List (List WdAlign) :=
  table.rows.enum.map (fun rp =>
    rp.2.enum.map (fun cp =>
      cellAlignPolicy rp.1 cp.1 (serialColIdx table) (cellText cp.2) short_text_len))

/-! ## Blank-separator normalization around tables
(formatter.py lines 936-937 and 961-976, 1053-1063)

The loop iterates over a *snapshot* `blocks = list(_iter_block_items(doc))`
taken before any insertion, and inserts blank paragraphs with
`addprevious`/`addnext` on the XML elements of snapshot blocks.  An
insertion relative to an element always lands immediately next to that
element, and all inserted paragraphs are blank, so the resulting
document is the concatenation, over the snapshot blocks in order, of
(blanks inserted before the block) ++ [block] ++ (blanks inserted after
the block), where each group of insertions is decided by the snapshot
neighbors of the块 alone:

* before a table (lines 961-976): a blank is inserted directly before
  the table when the previous snapshot block is a non-blank paragraph
  that is not a title/unit caption, or when the table is the first
  block; when the previous block is a title/unit caption paragraph the
  blank goes before *that paragraph* instead; when the previous block
  is a table the blank is added directly after that table;
* after a table (lines 1053-1063, default config
  `after_table_blank_line=True`): when the following snapshot block is
  a unit-caption paragraph, a blank goes after that paragraph unless the
  block after it is already a blank paragraph; otherwise a blank goes
  directly after the table unless the following block is already a blank
  paragraph.

Tables are represented without payload here: the pass reads only block
kinds and paragraph texts. -/

/-- A top-level document block. -/
inductive Block where
  | para (text : List Char)
  | table
deriving DecidableEq, Repr

/-- The blank paragraph inserted by the separator pass. -/
def blankB : Block := .para []

/-- A paragraph whose stripped text is empty. -/
def Block.isBlankPara : Block → Bool
  | .para t => (pyStrip t).isEmpty
  | .table => false

/-- A paragraph matching `_is_table_title`. -/
def Block.isTitlePara : Block → Bool
  | .para t => is_table_title t
  | .table => false

/-- A paragraph matching `_is_table_unit`. -/
def Block.isUnitPara : Block → Bool
  | .para t => is_table_unit t
  | .table => false

/-- Head of a block list is a blank paragraph. -/
def headIsBlankPara (l : List Block) : Bool :=
  match l.head? with
  | some b => b.isBlankPara
  | none => false

/-- Blank paragraphs materialized immediately before snapshot block `b`,
whose snapshot predecessor is `prev` and snapshot successors are `rest`. -/
def segPre (prev : Option Block) (b : Block) (rest : List Block) : List Block :=
  match b with
  | .table =>
      match prev with
      | none => [blankB]
      | some (.para p) =>
          if ¬(pyStrip p).isEmpty ∧ ¬(is_table_title p ∨ is_table_unit p)
          then [blankB] else []
      | some .table => []
  | .para p =>
      if (¬(pyStrip p).isEmpty ∧ (is_table_title p ∨ is_table_unit p)) ∧
         rest.head? = some .table
      then [blankB] else []

/-- Blank paragraphs materialized immediately after snapshot block `b`:
for a table, one blank added after it by the *next* table's
before-handling (line 973) plus the after-table blank of lines
1053-1063; for a unit-caption paragraph directly after a table, the
blank of line 1060. -/
def segPost (prev : Option Block) (b : Block) (rest : List Block) : List Block :=
  match b with
  | .table =>
      (if rest.head? = some .table then [blankB] else []) ++
      (match rest.head? with
       | some (.para u) =>
           if is_table_unit u then []
           else if (pyStrip u).isEmpty then [] else [blankB]
       | _ => [blankB])
  | .para u =>
      if is_table_unit u ∧ prev = some Block.table ∧ ¬headIsBlankPara rest
      then [blankB] else []

/-- The separator pass over the snapshot, carrying the snapshot
predecessor. -/
def blankPassGo : Option Block → List Block → List Block
  | _, [] => []
  | prev, b :: rest =>
      segPre prev b rest ++ [b] ++ segPost prev b rest ++ blankPassGo (some b) rest

/-- One run of the blank-separator normalization of the table loop. -/
def blankPass (d : List Block) : List Block := blankPassGo none d

/-! ## Line-spacing resolution of `format_paragraph`
(formatter.py lines 662-699)

`fmt` is a Python dict; its `line_spacing` entry is modelled as
`Option (Option ℚ)`: `none` = key absent, `some none` = key present with
value `None`, `some (some v)` = numeric value.  The source reads
`ls = fmt.get('line_spacing', line_spacing_pt)` — an *absent* key falls
back to the `line_spacing_pt` parameter, whose default is 28 and which
every call site leaves at that default — and then tests `if ls:`
(falsy for `None` and `0`). -/

/-- Exact-point or multiple line spacing, as written to the paragraph
format. -/
inductive LineSpacing where
  | exactly (pt : ℚ)
  | multiple (factor : ℚ)
deriving DecidableEq, Repr

/-- The line-spacing decision of `format_paragraph` (lines 693-699). -/
def format_paragraph_line_spacing (fmt_line_spacing : Option (Option ℚ))
    (line_spacing_pt : ℚ) : LineSpacing :=
  let ls : Option ℚ :=
    match fmt_line_spacing with
    | none => some line_spacing_pt
    | some v => v
  match ls with
  | some v => if v ≠ 0 then .exactly v else .multiple (3/2)
  | none => .multiple (3/2)

/-- Translation: `line_spacing` entries of the `official` preset (lines 52-156): only
the `body` StyleSpec carries one (28 pt); every other role's spec has no
`line_spacing` key.  Roles are always styled through an existing spec:
the driver (line 892) falls back to the `body` spec for a role with no
entry, and every role except `empty` has an entry in this preset. -/
def officialLineSpacing : Role → Option (Option ℚ)
  | .body => some (some 28)
  | _ => none

/-- Translation: `line_spacing` entries of the `academic` preset (lines 157-171): the
`body` spec maps it explicitly to `None`; all other specs lack the key. -/
def academicLineSpacing : Role → Option (Option ℚ)
  | .body => some none
  | _ => none

/-- Translation: `line_spacing` entries of the `legal` preset (lines 172-186): like
`academic`, the `body` spec maps it explicitly to `None`. -/
def legalLineSpacing : Role → Option (Option ℚ)
  | .body => some none
  | _ => none

/-! ## Preset resolution of `format_document` (formatter.py lines 825-848)

The preset name is resolved, and the run is aborted with
`sys.exit(1)` after printing the valid names, *before*
`Document(input_path)` is executed (line 848) and before any output is
produced: a `usageExit` outcome therefore loads no input and writes no
file. -/

/-- The keys of the `PRESETS` dictionary (lines 52-187). -/
def presetKeys : List (List Char) := ["official".data, "academic".data, "legal".data]

/-- Outcome of the preamble: a fatal usage exit with its exit code and
the printed list of available presets, or the preset the run proceeds
with. -/
inductive RunStart where
  | usageExit (exitCode : Nat) (available : List (List Char))
  | proceed (presetKey : List Char)
deriving DecidableEq, Repr

/-- Lines 828-841: `custom` loads the external configuration, falling
back to `official` when it is missing; any other name outside `PRESETS`
prints the valid set and exits with code 1. -/
def format_document_start (preset_name : List Char) (customConfigExists : Bool) :
    RunStart :=
  if preset_name = "custom".data then
    .proceed (if customConfigExists then "custom".data else "official".data)
  else if preset_name ∈ presetKeys then .proceed preset_name
  else .usageExit 1 presetKeys

/-- A guarded chain of alternatives: the value of the first alternative
whose guard holds, or the default. -/
def iteChain : List (Bool × Role) → Role → Role
  | [], d => d
  | (c, r) :: rest, d => if c then r else iteChain rest d

/-! ## Idempotence machinery for the blank-separator pass -/

/-- No block of the list is a title- or unit-caption paragraph (the
accumulation counterexample of C7 needs exactly such a paragraph). -/
def noTU (l : List Block) : Prop :=
  ∀ b ∈ l, b.isTitlePara = false ∧ b.isUnitPara = false

/-- The incoming-block variant of `noTU`. -/
def noTUB : Option Block → Prop
  | none => True
  | some b => b.isTitlePara = false ∧ b.isUnitPara = false

/-- Every table of the list has a blank paragraph directly before it
(`pb` says whether the element just before the list is a blank
paragraph) and directly after it. -/
def goodChain : Bool → List Block → Prop
  | _, [] => True
  | pb, .table :: rest => pb = true ∧ headIsBlankPara rest = true ∧ goodChain false rest
  | _, .para t :: rest => goodChain (pyStrip t).isEmpty rest

/-- The blank-boundary flag `blankPassGo prev l` starts with: whether the
element physically preceding its output is a blank paragraph. -/
def pbFor : Option Block → List Block → Bool
  | none, _ => false
  | some (.para t), _ => (pyStrip t).isEmpty
  | some .table, l => !headIsBlankPara l

/-! # Helper lemmas -/

theorem optMin_zero_left (b : Option Nat) : optMin (some 0) b = some 0 := by
  cases b <;> simp [optMin]

theorem optMin_zero_right (a : Option Nat) : optMin a (some 0) = some 0 := by
  cases a <;> simp [optMin]

theorem optMin_map_succ (a b : Option Nat) :
    optMin (a.map (· + 1)) (b.map (· + 1)) = (optMin a b).map (· + 1) := by
  cases a <;> cases b <;> simp [optMin] <;> omega

/-- The minimum over the per-character `str.find` positions taken by
`_split_heading_by_punct` coincides with a single left-to-right scan for
the first occurrence of any of the three characters. -/
theorem splitPunctIdx_eq (t : List Char) :
    splitPunctIdx t = findAnyPos ['：', ':', '。'] t := by
  induction t with
  | nil => rfl
  | cons x xs ih =>
      by_cases hx : x ∈ ['：', ':', '。']
      · have hx' := hx
        simp only [List.mem_cons, List.not_mem_nil, or_false] at hx'
        rcases hx' with h | h | h <;> subst h <;>
          simp [splitPunctIdx, findPos, findAnyPos, optMin_zero_left, optMin_zero_right]
      · have h1 : x ≠ '：' := fun h => hx (by simp [h])
        have h2 : x ≠ ':' := fun h => hx (by simp [h])
        have h3 : x ≠ '。' := fun h => hx (by simp [h])
        have l1 : findPos '：' (x :: xs) = (findPos '：' xs).map (· + 1) := by
          simp [findPos, h1]
        have l2 : findPos ':' (x :: xs) = (findPos ':' xs).map (· + 1) := by
          simp [findPos, h2]
        have l3 : findPos '。' (x :: xs) = (findPos '。' xs).map (· + 1) := by
          simp [findPos, h3]
        have r : findAnyPos ['：', ':', '。'] (x :: xs) =
            (findAnyPos ['：', ':', '。'] xs).map (· + 1) := by
          simp [findAnyPos, hx]
        simp only [splitPunctIdx] at ih ⊢
        rw [l1, l2, l3, optMin_map_succ, optMin_map_succ, r, ih]

theorem sum_map_div_mul (l : List ℚ) (s : ℚ) :
    (l.map (fun v => v / s * 100)).sum = l.sum / s * 100 := by
  induction l with
  | nil => simp
  | cons x xs ih =>
      simp only [List.map_cons, List.sum_cons, ih]
      ring

/-! # Claims -/

/-- C1: the spec asserts that a non-header, non-subtotal,
non-serial-column cell with text 1,234.50% matches the numeric-literal
pattern and is right-aligned.  On the code this fails: the raw-string
pattern of `_is_numeric_text` demands a literal backslash, so the text
classifies as non-numeric, falls past the short-text rule (length 9 > 4)
and is left-aligned.  The 合计-centering half of the claim does hold.
This theorem evaluates the code at the failing input. -/
theorem C1_numeric_cell_evaluation :
    is_numeric_text "1,234.50%".data = false ∧
    cellAlignPolicy 1 1 none "1,234.50%".data 4 = .left ∧
    cellAlignPolicy 1 1 none "合计".data 4 = .center ∧
    cellAlignPolicy 1 1 none "合计金额总览行".data 4 = .center := by decide

/-- C2 counterexample: the Heading Splitter leaves the paragraph
（二）加强宣传教育，营造良好氛围。 untouched (`none` models the
source returning `False` without mutating the document): its only
split punctuation is the trailing Chinese full stop, after which no
text follows, so no second paragraph 营造良好氛围。 is ever produced. -/
theorem C2_counterexample :
    split_heading_by_punct "（二）加强宣传教育，营造良好氛围。".data = none := by decide

/-- C2 amended: the general splitting rule of the claim holds — for a
heading-marker-prefixed paragraph the code truncates at the *first*
full- or half-width colon or Chinese full stop and inserts the non-empty
remainder after it, and otherwise leaves the paragraph untouched
(`split_heading_by_punct` coincides with `splitHeadingSpec`, the
transcription of the spec wording) — but the concrete example paragraph
（二）加强宣传教育，营造良好氛围。 is left untouched, because its only
split punctuation is the final full stop with nothing following;
it is not split at the comma into （二）加强宣传教育。 plus
营造良好氛围。. -/
theorem C2_amended_splitter :
    (∀ text : List Char, split_heading_by_punct text = splitHeadingSpec text) ∧
    split_heading_by_punct "（二）加强宣传教育，营造良好氛围。".data = none := by
  constructor
  · intro text
    simp only [split_heading_by_punct, splitHeadingSpec, splitPunctIdx_eq]
  · decide

/-- C3 counterexample: with three columns and the default band
[8%, 45%] — a feasible configuration, since 3·8 ≤ 100 ≤ 3·45 — the
weights [1, 1, 2] produce a final percentage 900/19 ≈ 47.37 that
exceeds the 45% cap: the re-normalization step moves clamped values
back out of the band, so the claimed in-band property fails even
outside the documented degenerate case. -/
theorem C3_counterexample :
    ((3 : ℚ) * 8 ≤ 100 ∧ 100 ≤ (3 : ℚ) * 45) ∧
    normalize_pcts [1, 1, 2] 8 45 = [500/19, 500/19, 900/19] ∧
    ¬ (∀ v ∈ normalize_pcts [1, 1, 2] 8 45, v ≤ 45) := by
  refine ⟨by norm_num, by norm_num [normalize_pcts, clampLow, clampHigh, pyTotal], ?_⟩
  intro h
  have hm : (900/19 : ℚ) ∈ normalize_pcts [1, 1, 2] 8 45 := by
    norm_num [normalize_pcts, clampLow, clampHigh, pyTotal]
  have := h _ hm
  norm_num at this

/-- C3 amended: for every non-empty weight list and every band with
0 < min% ≤ max%, the computed percentages sum to exactly 100, and the
*clamped* values (before the final re-normalization) all lie within
[min%, max%]; the final re-normalization preserves the exact sum but can
move individual values outside the band even when n·min% ≤ 100 ≤ n·max%
(see the counterexample). -/
theorem C3_amended (weights : List ℚ) (min_pct max_pct : ℚ)
    (hne : weights ≠ []) (h0 : 0 < min_pct) (hmm : min_pct ≤ max_pct) :
    (normalize_pcts weights min_pct max_pct).sum = 100 ∧
    ∀ v ∈ clampHigh max_pct (clampLow min_pct
        (weights.map (fun w => w / pyTotal weights * 100))),
      min_pct ≤ v ∧ v ≤ max_pct := by
  have hband : ∀ v ∈ clampHigh max_pct (clampLow min_pct
      (weights.map (fun w => w / pyTotal weights * 100))),
      min_pct ≤ v ∧ v ≤ max_pct := by
    intro v hv
    simp only [clampHigh, clampLow, List.map_map, List.mem_map] at hv
    obtain ⟨w, _, rfl⟩ := hv
    simp only [Function.comp_apply]
    set u := w / pyTotal weights * 100 with hu
    set a := if u < min_pct then min_pct else u with ha
    have hmin : min_pct ≤ a := by
      rw [ha]; split_ifs with h
      · exact le_refl _
      · exact le_of_not_lt h
    by_cases hgt : a > max_pct
    · rw [if_pos hgt]; exact ⟨hmm, le_refl _⟩
    · rw [if_neg hgt]; exact ⟨hmin, le_of_not_lt hgt⟩
  refine ⟨?_, hband⟩
  simp only [normalize_pcts]
  set C := clampHigh max_pct (clampLow min_pct
    (weights.map (fun w => w / pyTotal weights * 100))) with hC
  have hCne : C ≠ [] := by
    simp only [hC, clampHigh, clampLow, List.map_map, ne_eq, List.map_eq_nil_iff]
    exact hne
  have hpos : ∀ v ∈ C, 0 < v := fun v hv => lt_of_lt_of_le h0 (hband v hv).1
  have hsum : 0 < C.sum := List.sum_pos C hpos hCne
  have hs0 : C.sum ≠ 0 := ne_of_gt hsum
  have htot : pyTotal C = C.sum := by rw [pyTotal, if_neg hs0]
  rw [htot, sum_map_div_mul, div_self hs0, one_mul]

/-- C3 witness: the amended sum property evaluated at the weights
[1, 1, 2] with the default band [8, 45]. -/
theorem C3_witness :
    ([1, 1, 2] : List ℚ) ≠ [] ∧ (0 : ℚ) < 8 ∧ (8 : ℚ) ≤ 45 ∧
    (normalize_pcts [1, 1, 2] 8 45).sum = 100 :=
  ⟨by simp, by norm_num, by norm_num,
   (C3_amended [1, 1, 2] 8 45 (by simp) (by norm_num) (by norm_num)).1⟩

/-- C4 counterexample: the `official` preset's title StyleSpec has no
line-spacing entry, yet a paragraph styled with it receives an *exact*
28 pt line spacing (the `line_spacing_pt=28` default parameter of
`format_paragraph`), not the 1.5× multiple the claim requires for specs
without a line-spacing entry. -/
theorem C4_counterexample :
    format_paragraph_line_spacing (officialLineSpacing .title) 28 = .exactly 28 ∧
    LineSpacing.exactly 28 ≠ .multiple (3/2) := by
  refine ⟨by norm_num [format_paragraph_line_spacing, officialLineSpacing], fun h => ?_⟩
  exact LineSpacing.noConfusion h

/-- C4 amended: the Style Applicator sets an exact point value when the
StyleSpec maps `line_spacing` to a non-zero number; it sets the 1.5×
multiple only when the StyleSpec *explicitly* maps `line_spacing` to
`None` (or zero); when the StyleSpec has no line-spacing entry at all,
`fmt.get('line_spacing', line_spacing_pt)` falls back to the caller's
`line_spacing_pt` default of 28 and the paragraph receives an exact
28 pt spacing.  Consequently every role of the `official` preset is
styled at exactly 28 pt, while the `academic`/`legal` body specs (which
map the entry to `None`) receive the 1.5× multiple. -/
theorem C4_amended :
    (∀ v : ℚ, v ≠ 0 →
      format_paragraph_line_spacing (some (some v)) 28 = .exactly v) ∧
    format_paragraph_line_spacing (some none) 28 = .multiple (3/2) ∧
    format_paragraph_line_spacing (some (some 0)) 28 = .multiple (3/2) ∧
    (∀ lsp : ℚ, lsp ≠ 0 →
      format_paragraph_line_spacing none lsp = .exactly lsp) ∧
    (∀ r : Role, format_paragraph_line_spacing (officialLineSpacing r) 28 = .exactly 28) ∧
    format_paragraph_line_spacing (academicLineSpacing .body) 28 = .multiple (3/2) ∧
    format_paragraph_line_spacing (legalLineSpacing .body) 28 = .multiple (3/2) := by
  refine ⟨?_, ?_, ?_, ?_, ?_, ?_, ?_⟩
  · intro v hv; simp [format_paragraph_line_spacing, hv]
  · simp [format_paragraph_line_spacing]
  · simp [format_paragraph_line_spacing]
  · intro lsp hlsp; simp [format_paragraph_line_spacing, hlsp]
  · intro r; cases r <;> norm_num [format_paragraph_line_spacing, officialLineSpacing]
  · norm_num [format_paragraph_line_spacing, academicLineSpacing]
  · norm_num [format_paragraph_line_spacing, legalLineSpacing]

/-- C4 witness: the amended exact-point branch applied at the concrete
value 28. -/
theorem C4_witness :
    format_paragraph_line_spacing (some (some 28)) 28 = .exactly 28 :=
  C4_amended.1 28 (by norm_num)

/-- C5: for every classifier input on which rules 1-8 (headings,
recipient, attachment, closing, date) all fail, the classifier returns
`signature` exactly when the position test `index >= total - 10` and the
length test `len < 30` hold and either the text ends with one of the
fixed organizational-entity suffixes or one of the next three texts
after the first value-equal occurrence of the text in `allTexts` is a
date literal after stripping.  (The source compares the raw paragraph
index against the raw paragraph count, both including empty paragraphs;
the lookahead locates the current text by value equality, the documented
duplicate-text limitation.) -/
theorem C5_rule9_signature (text : List Char) (index total : Int)
    (alignment : Option WdAlign) (allTexts : List (List Char))
    (hne : (pyStrip text).isEmpty = false)
    (h1 : isH1Marker (pyStrip text) = false)
    (h2 : isH2Marker (pyStrip text) = false)
    (h3 : (isH3Marker (pyStrip text) && decide ((pyStrip text).length < 60)) = false)
    (h4 : (isH4Marker (pyStrip text) && decide ((pyStrip text).length < 60)) = false)
    (h5 : (matchRecipient (pyStrip text) && decide ((pyStrip text).length < 20)) = false)
    (h6 : matchAttachment (pyStrip text) = false)
    (h7 : isClosingText (pyStrip text) = false)
    (h8 : isDateText (pyStrip text) = false) :
    detect_para_type text index total alignment allTexts = .signature ↔
      total - 10 ≤ index ∧ (pyStrip text).length < 30 ∧
        (endsWithOrg (pyStrip text) = true ∨
         nextThreeHasDate (pyStrip text) allTexts = true) := by
  simp only [detect_para_type, detectRules, hne, h1, h2, h3, h4, h5, h6, h7, h8,
    Bool.false_eq_true, if_false]
  split_ifs with hc1 hc2 hc3 hc4 hc5 <;>
    simp_all [Bool.and_eq_true, decide_eq_true_iff] <;> tauto

/-- C5 witness: a short organization-suffixed text in the closing region
of a document classifies as `signature`. -/
theorem C5_witness :
    detect_para_type "某某公司".data 45 50 none [] = Role.signature :=
  (C5_rule9_signature "某某公司".data 45 50 none []
      (by decide) (by decide) (by decide) (by decide) (by decide)
      (by decide) (by decide) (by decide) (by decide)).mpr (by decide)

/-- C6: the spec asserts that a paragraph 表1 immediately before a table
is detected as a caption title (centered, single-spaced) and a paragraph
单位：万元 immediately after it as a unit note (right-aligned).  On the
code both detections fail: the raw-string patterns of `_is_table_title`
and `_is_table_unit` demand a literal backslash after 表 / 单位, so both
predicates return false on the claimed inputs; operationally the 表1
paragraph is then treated as an ordinary non-blank paragraph — the
separator pass inserts a blank *between* it and the table instead of
keeping the caption adjacent — and no caption styling is applied.  This
theorem evaluates the code at the failing inputs. -/
theorem C6_caption_detection_evaluation :
    is_table_title "表1".data = false ∧
    is_table_unit "单位：万元".data = false ∧
    blankPass [Block.para "表1".data, Block.table] =
      [Block.para "表1".data, blankB, Block.table, blankB] := by decide

/-- C8: every preset name outside {official, academic, legal, custom}
makes the preamble of `format_document` print the valid preset names and
exit with code 1; the `usageExit` outcome is produced before
`Document(input_path)` runs (line 848), so no input is loaded and no
output file is written. -/
theorem C8_unknown_preset_usage_error (name : List Char) (customConfigExists : Bool)
    (h : name ∉ ("custom".data :: presetKeys)) :
    format_document_start name customConfigExists = .usageExit 1 presetKeys := by
  simp only [List.mem_cons, not_or] at h
  obtain ⟨hc, hk⟩ := h
  simp [format_document_start, hc, hk]

/-- C8 witness: the misspelled preset name offcial is rejected with exit
code 1 and the valid preset list. -/
theorem C8_witness :
    format_document_start "offcial".data true = RunStart.usageExit 1 presetKeys :=
  C8_unknown_preset_usage_error "offcial".data true (by decide)

/-- C9: on a zero-row table the Table Layout Engine performs no row work
and cannot abort: the content-weighted column-sizing step returns via
its `if not table.rows: return` guard without touching the table
(modelled by `none`), serial-number-column detection inspects no header
and yields no column, and the per-cell styling loop visits no cell;
every translated operation is a total function, so the run never fails
on such a table. -/
theorem C9_zero_row_table_noop (t : DocxTable) (min_pct max_pct : ℚ)
    (short_len : Nat) (h : t.rows = []) :
    set_table_col_widths_by_content t min_pct max_pct = none ∧
    serialColIdx t = none ∧
    tableCellAlignments t short_len = [] := by
  refine ⟨?_, ?_, ?_⟩
  · simp [set_table_col_widths_by_content, h]
  · simp [serialColIdx, h]
  · simp [tableCellAlignments, h]

/-- C9 witness: the zero-row no-op evaluated on the empty table. -/
theorem C9_witness :
    set_table_col_widths_by_content ⟨[]⟩ 8 45 = none ∧
    serialColIdx ⟨[]⟩ = none ∧
    tableCellAlignments ⟨[]⟩ 4 = [] :=
  C9_zero_row_table_noop ⟨[]⟩ 8 45 4 rfl

theorem iteChain_ne_empty (l : List (Bool × Role)) (d : Role)
    (hl : ∀ p ∈ l, p.2 ≠ Role.empty) (hd : d ≠ Role.empty) :
    iteChain l d ≠ Role.empty := by
  induction l with
  | nil => exact hd
  | cons p rest ih =>
      obtain ⟨c, r⟩ := p
      simp only [iteChain]
      split
      · exact hl (c, r) (List.mem_cons_self _ _)
      · exact ih (fun q hq => hl q (List.mem_cons_of_mem _ hq))

/-- The rule chain never returns `empty`: every branch value is one of
the eleven non-empty roles. -/
theorem detectRules_ne_empty (t : List Char) (index total : Int)
    (alignment : Option WdAlign) (allTexts : List (List Char)) :
    detectRules t index total alignment allTexts ≠ Role.empty := by
  have hrepr : detectRules t index total alignment allTexts =
      iteChain
        [(isH1Marker t, Role.heading1),
         (isH2Marker t, Role.heading2),
         (isH3Marker t && decide (t.length < 60), Role.heading3),
         (isH4Marker t && decide (t.length < 60), Role.heading4),
         (matchRecipient t && decide (t.length < 20), Role.recipient),
         (matchAttachment t, Role.attachment),
         (isClosingText t, Role.closing),
         (isDateText t, Role.date),
         ((decide (total - 10 ≤ index) && decide (t.length < 30)) &&
            endsWithOrg t, Role.signature),
         ((decide (total - 10 ≤ index) && decide (t.length < 30)) &&
            nextThreeHasDate t allTexts, Role.signature),
         (decide (index < 5) && (matchTitleGuanyu t || matchTitleGeneric t), Role.title),
         (decide (index < 5) && (decide (15 < t.length) && decide (t.length < 80) &&
            !endsSentencePunct t && !startsOrdinalish t), Role.title),
         (decide (index < 5) && (decide (alignment = some WdAlign.center) &&
            decide (t.length < 60)), Role.title)]
        Role.body := rfl
  rw [hrepr]
  apply iteChain_ne_empty
  · intro p hp
    simp only [List.mem_cons, List.not_mem_nil, or_false] at hp
    rcases hp with rfl | rfl | rfl | rfl | rfl | rfl | rfl | rfl | rfl | rfl |
      rfl | rfl | rfl <;> exact fun hcon => Role.noConfusion hcon
  · exact fun hcon => Role.noConfusion hcon

/-- C10: the classifier is a total function into the closed twelve-value
role set (totality is by construction: `detect_para_type` is a Lean
function defined for every input); it returns `empty` exactly when the
stripped text is empty; and a non-empty text on which none of the rules
1-10 fires falls through to `body`. -/
theorem C10_classifier_totality (text : List Char) (index total : Int)
    (alignment : Option WdAlign) (allTexts : List (List Char)) :
    detect_para_type text index total alignment allTexts ∈
      [Role.title, Role.recipient, Role.heading1, Role.heading2, Role.heading3,
       Role.heading4, Role.body, Role.signature, Role.date, Role.attachment,
       Role.closing, Role.empty] ∧
    (detect_para_type text index total alignment allTexts = Role.empty ↔
      (pyStrip text).isEmpty = true) ∧
    ((pyStrip text).isEmpty = false →
     isH1Marker (pyStrip text) = false →
     isH2Marker (pyStrip text) = false →
     (isH3Marker (pyStrip text) && decide ((pyStrip text).length < 60)) = false →
     (isH4Marker (pyStrip text) && decide ((pyStrip text).length < 60)) = false →
     (matchRecipient (pyStrip text) && decide ((pyStrip text).length < 20)) = false →
     matchAttachment (pyStrip text) = false →
     isClosingText (pyStrip text) = false →
     isDateText (pyStrip text) = false →
     ((decide (total - 10 ≤ index) && decide ((pyStrip text).length < 30)) &&
        endsWithOrg (pyStrip text)) = false →
     ((decide (total - 10 ≤ index) && decide ((pyStrip text).length < 30)) &&
        nextThreeHasDate (pyStrip text) allTexts) = false →
     (decide (index < 5) && (matchTitleGuanyu (pyStrip text) ||
        matchTitleGeneric (pyStrip text))) = false →
     (decide (index < 5) && (decide (15 < (pyStrip text).length) &&
        decide ((pyStrip text).length < 80) && !endsSentencePunct (pyStrip text) &&
        !startsOrdinalish (pyStrip text))) = false →
     (decide (index < 5) && (decide (alignment = some WdAlign.center) &&
        decide ((pyStrip text).length < 60))) = false →
     detect_para_type text index total alignment allTexts = Role.body) := by
  refine ⟨?_, ?_, ?_⟩
  · have hall : ∀ r : Role, r ∈
        [Role.title, Role.recipient, Role.heading1, Role.heading2, Role.heading3,
         Role.heading4, Role.body, Role.signature, Role.date, Role.attachment,
         Role.closing, Role.empty] := fun r => by cases r <;> simp
    exact hall _
  · constructor
    · intro h
      by_cases he : (pyStrip text).isEmpty = true
      · exact he
      · exfalso
        have he' : (pyStrip text).isEmpty = false := by
          simpa using he
        have hd : detect_para_type text index total alignment allTexts =
            detectRules (pyStrip text) index total alignment allTexts := by
          simp [detect_para_type, he']
        rw [hd] at h
        exact detectRules_ne_empty _ _ _ _ _ h
    · intro he
      simp [detect_para_type, he]
  · intro he h1 h2 h3 h4 h5 h6 h7 h8 h9 h10 h11 h12 h13
    simp only [detect_para_type, detectRules, he, h1, h2, h3, h4, h5, h6, h7, h8,
      h9, h10, h11, h12, h13, Bool.false_eq_true, if_false]

/-- C10 witness: an ordinary mid-document sentence classifies as
`body`. -/
theorem C10_witness :
    detect_para_type "这是一段普通的正文内容。".data 10 50 none [] = Role.body :=
  (C10_classifier_totality "这是一段普通的正文内容。".data 10 50 none []).2.2
    (by decide) (by decide) (by decide) (by decide) (by decide) (by decide)
    (by decide) (by decide) (by decide) (by decide) (by decide) (by decide)
    (by decide) (by decide)

theorem is_table_unit_of_blank (u : List Char) (h : (pyStrip u).isEmpty = true) :
    is_table_unit u = false := by
  simp [is_table_unit, h]

theorem segPre_cases (prev : Option Block) (b : Block) (rest : List Block) :
    segPre prev b rest = [] ∨ segPre prev b rest = [blankB] := by
  cases b with
  | para p =>
      simp only [segPre]
      split_ifs <;> simp
  | table =>
      cases prev with
      | none => right; rfl
      | some pb' =>
          cases pb' with
          | para p =>
              simp only [segPre]
              split_ifs <;> simp
          | table => left; rfl

theorem segPost_cases (prev : Option Block) (b : Block) (rest : List Block) :
    segPost prev b rest = [] ∨ segPost prev b rest = [blankB] ∨
    segPost prev b rest = [blankB, blankB] := by
  cases b with
  | para u =>
      simp only [segPost]
      split_ifs <;> simp
  | table =>
      simp only [segPost]
      cases hr : rest.head? with
      | none => simp
      | some nb =>
          cases nb with
          | para u =>
              by_cases h1 : is_table_unit u = true
              · simp [h1]
              · by_cases h2 : (pyStrip u).isEmpty = true
                · simp [h1, h2]
                · simp [h1, h2]
          | table => simp

/-- The pass only ever adds blank paragraphs, so it preserves the
absence of title/unit captions. -/
theorem noTU_blankPassGo (l : List Block) : ∀ prev, noTU l →
    noTU (blankPassGo prev l) := by
  induction l with
  | nil =>
      intro prev _ x hx
      simp [blankPassGo] at hx
  | cons b rest ih =>
      intro prev hno x hx
      have hrest : noTU rest := fun y hy => hno y (List.mem_cons_of_mem _ hy)
      have hblank : (blankB.isTitlePara = false ∧ blankB.isUnitPara = false) := by decide
      rw [blankPassGo] at hx
      simp only [List.append_assoc, List.mem_append, List.mem_cons,
        List.not_mem_nil, or_false] at hx
      rcases hx with hx | hx | hx | hx
      · rcases segPre_cases prev b rest with hc | hc <;> rw [hc] at hx <;>
          simp at hx
        rw [hx]; exact hblank
      · rw [hx]; exact hno b (List.mem_cons_self _ _)
      · rcases segPost_cases prev b rest with hc | hc | hc <;> rw [hc] at hx <;>
          simp at hx <;> first
          | (rw [hx]; exact hblank)
          | (rcases hx with hx | hx <;> rw [hx] <;> exact hblank)
      · exact ih (some b) hrest x hx

/-- On a document in which every table already has blank paragraphs
directly before and after it (and no title/unit captions occur), the
pass inserts nothing. -/
theorem blankPassGo_fixed (l : List Block) : ∀ prev, noTUB prev → noTU l →
    goodChain (pbFor prev l) l → blankPassGo prev l = l := by
  induction l with
  | nil => intro prev _ _ _; rfl
  | cons b rest ih =>
      intro prev hprev hno hgood
      have hb := hno b (List.mem_cons_self _ _)
      have hrest : noTU rest := fun y hy => hno y (List.mem_cons_of_mem _ hy)
      cases b with
      | para t =>
          have h1 : is_table_title t = false := hb.1
          have h2 : is_table_unit t = false := hb.2
          have hseg1 : segPre prev (Block.para t) rest = [] := by
            simp [segPre, h1, h2]
          have hseg2 : segPost prev (Block.para t) rest = [] := by
            simp [segPost, h2]
          have hgood' : goodChain (pyStrip t).isEmpty rest := by
            simpa only [goodChain] using hgood
          rw [blankPassGo, hseg1, hseg2,
            ih (some (Block.para t)) hb hrest hgood']
          simp
      | table =>
          have hgood' : pbFor prev (Block.table :: rest) = true ∧
              headIsBlankPara rest = true ∧ goodChain false rest := by
            simpa only [goodChain] using hgood
          obtain ⟨hpb, hhead, hrg⟩ := hgood'
          have hseg1 : segPre prev Block.table rest = [] := by
            cases prev with
            | none => simp [pbFor] at hpb
            | some pb' =>
                cases pb' with
                | para p =>
                    have hpe : (pyStrip p).isEmpty = true := by
                      simpa [pbFor] using hpb
                    simp [segPre, hpe]
                | table => rfl
          cases rest with
          | nil => simp [headIsBlankPara] at hhead
          | cons nb rest2 =>
              cases nb with
              | table => simp [headIsBlankPara, Block.isBlankPara] at hhead
              | para u =>
                  have hu : (pyStrip u).isEmpty = true := by
                    simpa [headIsBlankPara, Block.isBlankPara] using hhead
                  have hunit : is_table_unit u = false :=
                    is_table_unit_of_blank u hu
                  have hseg2 : segPost prev Block.table (Block.para u :: rest2) = [] := by
                    simp [segPost, hunit, hu]
                  have hpbr : pbFor (some Block.table) (Block.para u :: rest2) = false := by
                    simp [pbFor, headIsBlankPara, Block.isBlankPara, hu]
                  have hrec := ih (some Block.table) ⟨rfl, rfl⟩ hrest (by rwa [hpbr])
                  rw [blankPassGo, hseg1, hseg2, hrec]
                  simp

/-- The output of the pass is a document in which every table has blank
paragraphs directly before and after it. -/
theorem blankPassGo_good (l : List Block) : ∀ prev, noTUB prev → noTU l →
    goodChain (pbFor prev l) (blankPassGo prev l) := by
  induction l with
  | nil =>
      intro prev _ _
      simp [blankPassGo, goodChain]
  | cons b rest ih =>
      intro prev hprev hno
      have hb := hno b (List.mem_cons_self _ _)
      have hrest : noTU rest := fun y hy => hno y (List.mem_cons_of_mem _ hy)
      cases b with
      | para t =>
          have h1 : is_table_title t = false := hb.1
          have h2 : is_table_unit t = false := hb.2
          have hseg1 : segPre prev (Block.para t) rest = [] := by
            simp [segPre, h1, h2]
          have hseg2 : segPost prev (Block.para t) rest = [] := by
            simp [segPost, h2]
          rw [blankPassGo, hseg1, hseg2]
          simp only [List.nil_append, List.append_nil]
          show goodChain (pyStrip t).isEmpty (blankPassGo (some (Block.para t)) rest)
          exact ih (some (Block.para t)) hb hrest
      | table =>
          have hTail : headIsBlankPara (segPost prev Block.table rest ++
                blankPassGo (some Block.table) rest) = true ∧
              goodChain false (segPost prev Block.table rest ++
                blankPassGo (some Block.table) rest) := by
            cases rest with
            | nil =>
                constructor
                · rfl
                · show goodChain false ([blankB] ++ [])
                  simp [goodChain, blankB, pyStrip]
            | cons nb rest2 =>
                cases nb with
                | table =>
                    have hsp : segPost prev Block.table (Block.table :: rest2) =
                        [blankB, blankB] := rfl
                    have hih := ih (some Block.table) ⟨rfl, rfl⟩ hrest
                    rw [hsp]
                    refine ⟨rfl, ?_⟩
                    show goodChain false (blankB :: blankB ::
                      blankPassGo (some Block.table) (Block.table :: rest2))
                    exact hih
                | para u =>
                    by_cases hu : (pyStrip u).isEmpty = true
                    · have hunit : is_table_unit u = false :=
                        is_table_unit_of_blank u hu
                      have hsp : segPost prev Block.table (Block.para u :: rest2) = [] := by
                        simp [segPost, hunit, hu]
                      have hih := ih (some Block.table) ⟨rfl, rfl⟩ hrest
                      have hpbr : pbFor (some Block.table) (Block.para u :: rest2) = false := by
                        simp [pbFor, headIsBlankPara, Block.isBlankPara, hu]
                      rw [hsp]
                      simp only [List.nil_append]
                      constructor
                      · rw [blankPassGo]
                        have hpre : segPre (some Block.table) (Block.para u) rest2 = [] := by
                          simp [segPre, hu]
                        rw [hpre]
                        simpa [headIsBlankPara, Block.isBlankPara] using hu
                      · rwa [hpbr] at hih
                    · have hu' : (pyStrip u).isEmpty = false := by
                        simpa using hu
                      have hbu := hrest (Block.para u) (List.mem_cons_self _ _)
                      have hunit : is_table_unit u = false := hbu.2
                      have hsp : segPost prev Block.table (Block.para u :: rest2) =
                          [blankB] := by
                        simp [segPost, hunit, hu']
                      have hih := ih (some Block.table) ⟨rfl, rfl⟩ hrest
                      have hpbr : pbFor (some Block.table) (Block.para u :: rest2) = true := by
                        simp [pbFor, headIsBlankPara, Block.isBlankPara, hu']
                      rw [hsp]
                      refine ⟨rfl, ?_⟩
                      show goodChain false (blankB ::
                        blankPassGo (some Block.table) (Block.para u :: rest2))
                      rw [hpbr] at hih
                      exact hih
          have hA : segPre prev Block.table rest = [blankB] ∨
              (segPre prev Block.table rest = [] ∧
               pbFor prev (Block.table :: rest) = true) := by
            cases prev with
            | none => left; rfl
            | some pb' =>
                cases pb' with
                | para p =>
                    have hp1 : is_table_title p = false := hprev.1
                    have hp2 : is_table_unit p = false := hprev.2
                    by_cases hpe : (pyStrip p).isEmpty = true
                    · right
                      refine ⟨by simp [segPre, hpe], by simp [pbFor, hpe]⟩
                    · left
                      simp [segPre, hp1, hp2, hpe]
                | table =>
                    right
                    refine ⟨rfl, by simp [pbFor, headIsBlankPara, Block.isBlankPara]⟩
          rcases hA with hA | ⟨hA, hpb⟩
          · rw [blankPassGo, hA]
            simp only [List.cons_append, List.nil_append, List.append_assoc]
            show goodChain (pbFor prev (Block.table :: rest)) (blankB :: Block.table ::
              (segPost prev Block.table rest ++ blankPassGo (some Block.table) rest))
            simp only [blankB, goodChain]
            exact ⟨rfl, hTail.1, hTail.2⟩
          · rw [blankPassGo, hA]
            simp only [List.cons_append, List.nil_append, List.append_assoc]
            show goodChain (pbFor prev (Block.table :: rest)) (Block.table ::
              (segPost prev Block.table rest ++ blankPassGo (some Block.table) rest))
            simp only [goodChain]
            exact ⟨hpb, hTail.1, hTail.2⟩

/-- C7 counterexample: on the document [paragraph 表\一, table] — whose
first paragraph matches the (mis-escaped) `_is_table_title` pattern —
the second run of the blank-separator pass inserts a further blank
paragraph before the caption paragraph: the title branch of the
before-table handling (line 969) inserts without checking whether a
blank paragraph is already there, so blanks accumulate and the pass is
not idempotent as claimed. -/
theorem C7_counterexample :
    blankPass (blankPass [Block.para "表\\一".data, Block.table]) ≠
      blankPass [Block.para "表\\一".data, Block.table] := by decide

/-- C7 amended: the blank-separator normalization is idempotent on every
document containing no paragraph that matches the `_is_table_title` /
`_is_table_unit` patterns (after one run every table is enclosed in
blank paragraphs, and a second run inserts nothing); when such a caption
paragraph directly precedes a table, each run inserts one more blank
before the caption (see the counterexample). -/
theorem C7_amended (d : List Block)
    (h : ∀ b ∈ d, b.isTitlePara = false ∧ b.isUnitPara = false) :
    blankPass (blankPass d) = blankPass d := by
  have hout : noTU (blankPass d) := noTU_blankPassGo d none h
  have hgood : goodChain (pbFor none (blankPass d)) (blankPass d) :=
    blankPassGo_good d none trivial h
  exact blankPassGo_fixed (blankPass d) none trivial hout hgood

/-- C7 witness: idempotence evaluated on a document with one ordinary
paragraph and one table. -/
theorem C7_witness :
    blankPass (blankPass [Block.para "正文内容在此".data, Block.table]) =
      blankPass [Block.para "正文内容在此".data, Block.table] :=
  C7_amended [Block.para "正文内容在此".data, Block.table] (by decide)

end DocFmt
